import Mathlib

/-!
Shallow embedding of the NFT manager smart contract (src/src/nft_manager.rs)
and proofs about its specification.

Modelling conventions:
* Managed byte buffers are `List Nat` (one `Nat` per byte).
* `BigUint` values (prices, payment amounts, balances) are `Nat`.
* The `u32` storage counter `mint_count` is a `Nat` reduced modulo `2 ^ 32`
  exactly where the source performs `u32` arithmetic (release-build
  wrapping semantics).
* The SHA-256 primitive, the block timestamp and the runtime-assigned NFT
  nonce are external collaborators; they enter the model as parameters.
* A failed `require!` aborts the transaction with no state change and no
  value transfer; operations therefore return `Except Err ...`, an error
  meaning the whole call reverted.
* Elrond serializes contract calls: each entry point runs as one atomic
  step. The asynchronous issuance is two separate atomic steps — the
  request, which joins the set of outstanding requests of a configuration
  `Sys`, and the later delivery of its callback. Arbitrary calls
  (including a duplicate issueNft, which the spec's §5 admits) may
  interleave between the two, and the callback of any outstanding request
  may be delivered at any later point.
-/

namespace NftManager

/-- Byte buffers (ManagedBuffer contents), one Nat per byte. -/
abbrev Bytes := List Nat

/-- ASCII bytes of a string literal. -/
def str_bytes (s : String) : Bytes := s.data.map Char.toNat

/-- Account addresses. -/
abbrev Address := Nat

/-- Token identifiers: the native asset EGLD, or an ESDT identifier given by
its byte buffer. -/
inductive TokenIdentifier where
  | egld : TokenIdentifier
  | esdt (bytes : Bytes) : TokenIdentifier
deriving DecidableEq, Repr

/-- Source: `TokenIdentifier::is_egld`. -/
def TokenIdentifier.is_egld : TokenIdentifier → Bool
  | .egld => true
  | .esdt _ => false

/-- Ticker characters accepted by the SDK: uppercase letters and digits. -/
def is_esdt_ticker_char (c : Nat) : Bool :=
  (65 ≤ c && c ≤ 90) || (48 ≤ c && c ≤ 57)

/-- Random-part characters accepted by the SDK: lowercase letters and digits. -/
def is_esdt_random_char (c : Nat) : Bool :=
  (97 ≤ c && c ≤ 122) || (48 ≤ c && c ≤ 57)

/-- Modelled from the spec: the external SDK's syntactic validity check for
fungible-asset identifiers (`TokenIdentifier::is_valid_esdt_identifier`, not
part of this repository): a ticker of 3 to 10 uppercase alphanumeric bytes,
a dash, then 6 lowercase alphanumeric bytes. The theorems below depend only
on the predicate's value, never on its internal structure. -/
def TokenIdentifier.is_valid_esdt_identifier : TokenIdentifier → Bool
  | .egld => false
  | .esdt bs =>
      let n := bs.length
      (10 ≤ n && n ≤ 17)
        && (bs.take (n - 7)).all is_esdt_ticker_char
        && ((bs.drop (n - 7)).head? == some 45)
        && (bs.drop (n - 6)).all is_esdt_random_char

/-- Abort causes of the contract's entry points, one per `require!` site
(plus the `#[only_owner]` guard). -/
inductive Err where
  | invalidRoyalty
  | invalidAsset
  | alreadyIssued
  | tokenNotIssued
  | wrongAsset
  | insufficientPayment
  | nothingToWithdraw
  | callerNotOwner
deriving DecidableEq, Repr

/-- Exact abort message of each `require!` site in the source
(`start_minting` spells its message "token not issued", lowercase). -/
def Err.message : Err → String
  | .invalidRoyalty => "royalties cannot exceed 100%"
  | .invalidAsset => "invalid token identifier provided"
  | .alreadyIssued => "Token already issued"
  | .tokenNotIssued => "Token not issued"
  | .wrongAsset => "not given token identifier"
  | .insufficientPayment => "not enough tokens"
  | .nothingToWithdraw => "not enough balance"
  | .callerNotOwner => "Endpoint can only be called by owner"

/-- Wrap-around modulus of the `u32` storage counter. -/
def U32_MOD : Nat := 2 ^ 32

def NFT_AMOUNT : Nat := 1
def ROYALTIES_MAX : Nat := 10000

def URI_SLASH : Bytes := str_bytes "/"
def HASH_TAG : Bytes := str_bytes "#"
def CREATION_TIME_KEY_NAME : Bytes := str_bytes "creatime:"
def IMAGE_FILE_EXTENSION : Bytes := str_bytes ".png"
def METADATA_FILE_EXTENSION : Bytes := str_bytes ".json"

/-- Decimal ASCII bytes of a number, as produced by `to_string()`. -/
def to_string_bytes (n : Nat) : Bytes := (Nat.repr n).data.map Char.toNat

/-- Native-endian (wasm32: little-endian) 8-byte encoding of a `u64`,
as produced by `to_ne_bytes()`. -/
def to_ne_bytes (t : Nat) : Bytes :=
  (List.range 8).map fun i => t / 256 ^ i % 256

/-- Persistent contract storage, one field per storage mapper.
`nft_token_id = none` models an empty `nft_token_id` mapper ("not yet
issued"); an empty `paused` mapper decodes to `false` and empty buffers
to `[]`. -/
structure State where
  payment_token_id : TokenIdentifier
  nft_token_price : Nat
  royalties : Nat
  image_base_uri : Bytes
  metadata_base_uri : Bytes
  mint_count : Nat
  nft_token_id : Option TokenIdentifier
  nft_token_name : Bytes
  paused : Bool
deriving DecidableEq, Repr

/-- A `direct` value transfer emitted by the contract: recipient, token,
token nonce (0 for fungible assets), amount. -/
structure Transfer where
  dest : Address
  token : TokenIdentifier
  nonce : Nat
  amount : Nat
deriving DecidableEq, Repr

/-- Arguments the contract forwards to the external authority in
`issue_non_fungible` (the capability profile is fixed in the source). -/
structure IssueRequest where
  issue_cost : Nat
  token_name : Bytes
  token_ticker : Bytes
deriving DecidableEq, Repr

/-- ManagedAsyncCallResult. -/
inductive AsyncCallResult (α : Type) where
  | ok (value : α)
  | err (err_code : Nat)
deriving DecidableEq, Repr

/-- Description of the unit requested from `esdt_nft_create`, in the
argument order of the source call. -/
structure CreatedNft where
  token : TokenIdentifier
  amount : Nat
  name : Bytes
  royalties : Nat
  hash : Bytes
  attributes : Bytes
  uris : List Bytes
deriving DecidableEq, Repr

/-- Source: `init`. Checks royalties, then the payment-token identifier,
then persists the configuration and sets `mint_count` to 0. An `Err`
result models an aborted deployment with nothing persisted. -/
def init (payment_token_id : TokenIdentifier) (nft_token_price : Nat)
    (royalties : Nat) (image_base_uri metadata_base_uri : Bytes) :
    Except Err State :=
  if royalties ≤ ROYALTIES_MAX then
    if payment_token_id.is_egld || payment_token_id.is_valid_esdt_identifier then
      .ok { payment_token_id := payment_token_id
            nft_token_price := nft_token_price
            royalties := royalties
            image_base_uri := image_base_uri
            metadata_base_uri := metadata_base_uri
            mint_count := 0
            nft_token_id := none
            nft_token_name := []
            paused := false }
    else .error .invalidAsset
  else .error .invalidRoyalty

/-- Source: helper `require_token_issued`. -/
def require_token_issued (s : State) : Except Err Unit :=
  if s.nft_token_id.isNone then .error .tokenNotIssued else .ok ()

/-- Source: `issue_nft` (endpoint issueNft, only_owner, payable EGLD).
Requires the token id mapper empty, saves the token name, then forwards
the attached EGLD and the name/ticker to the authority. The async request
itself is returned as data; its callback is `issue_callback`. -/
def issue_nft (token_name token_ticker : Bytes) (egld_value : Nat)
    (caller owner : Address) (s : State) :
    Except Err (State × IssueRequest) :=
  if caller = owner then
    if s.nft_token_id.isNone then
      .ok ({ s with nft_token_name := token_name },
           ⟨egld_value, token_name, token_ticker⟩)
    else .error .alreadyIssued
  else .error .callerNotOwner

/-- Source: `issue_callback`. On success stores the token id; on failure
forwards a returned positive EGLD amount to the owner and changes no
storage. `returned_tokens`/`returned_token_id` model
`call_value().payment_token_pair()`. Returns the new state and the list
of transfers sent. -/
def issue_callback (result : AsyncCallResult TokenIdentifier)
    (returned_tokens : Nat) (returned_token_id : TokenIdentifier)
    (owner : Address) (s : State) : State × List Transfer :=
  match result with
  | .ok token_id => ({ s with nft_token_id := some token_id }, [])
  | .err _ =>
      if returned_token_id.is_egld ∧ 0 < returned_tokens then
        (s, [⟨owner, returned_token_id, 0, returned_tokens⟩])
      else (s, [])

/-- Source: `set_local_roles` (only_owner). Requires the token issued and
sends an async role request; no storage is written. -/
def set_local_roles (caller owner : Address) (s : State) : Except Err Unit :=
  if caller = owner then require_token_issued s
  else .error .callerNotOwner

/-- Source: `pause_minting` (only_owner). -/
def pause_minting (caller owner : Address) (s : State) : Except Err State :=
  if caller = owner then .ok { s with paused := true }
  else .error .callerNotOwner

/-- Source: `start_minting` (only_owner). Requires the token issued and
clears `paused` (an empty mapper decodes to `false`). -/
def start_minting (caller owner : Address) (s : State) : Except Err State :=
  if caller = owner then
    if s.nft_token_id.isNone then .error .tokenNotIssued
    else .ok { s with paused := false }
  else .error .callerNotOwner

/-- Source: `withdraw` (only_owner). Targets EGLD when no token id is
given, the named token otherwise; requires a nonzero contract balance and
sends the whole balance to the caller. `bal` is the contract's balance
per token; the result is the contract's balance after the send, plus the
transfer. -/
def withdraw (token_id : Option TokenIdentifier) (caller owner : Address)
    (bal : TokenIdentifier → Nat) :
    Except Err ((TokenIdentifier → Nat) × Transfer) :=
  if caller = owner then
    let payment_token_id :=
      match token_id with
      | some ti => ti
      | none => TokenIdentifier.egld
    let balance := bal payment_token_id
    if balance ≠ 0 then
      .ok (fun t => if t = payment_token_id then bal t - balance else bal t,
           ⟨caller, payment_token_id, 0, balance⟩)
    else .error .nothingToWithdraw
  else .error .callerNotOwner

/-- Source: private `_mint`. Builds the attributes from the block
timestamp, hashes them, derives name and the two URIs from
`mint_count + 1` (u32 arithmetic), requests unit creation, increments
`mint_count` (u32 wrap) and returns the runtime-assigned nonce. -/
def _mint (sha256 : Bytes → Bytes) (block_timestamp : Nat) (nft_nonce : Nat)
    (s : State) : State × CreatedNft × Nat :=
  let nft_token_id := s.nft_token_id.getD .egld
  let creation_time_key := CREATION_TIME_KEY_NAME
  let creation_time := to_ne_bytes block_timestamp
  let attributes := creation_time_key ++ creation_time
  let hash_buffer := sha256 attributes
  let mint_id := (s.mint_count + 1) % U32_MOD
  let name := s.nft_token_name ++ HASH_TAG ++ to_string_bytes mint_id
  let image_uri :=
    s.image_base_uri ++ URI_SLASH ++ to_string_bytes mint_id
      ++ IMAGE_FILE_EXTENSION
  let metadata_uri :=
    s.image_base_uri ++ URI_SLASH ++ to_string_bytes mint_id
      ++ METADATA_FILE_EXTENSION
  let uris := [image_uri, metadata_uri]
  let created : CreatedNft :=
    ⟨nft_token_id, NFT_AMOUNT, name, s.royalties, hash_buffer, attributes, uris⟩
  ({ s with mint_count := (s.mint_count + 1) % U32_MOD }, created, nft_nonce)

/-- Source: `mint` (endpoint, payable with any asset, callable by anyone).
Checks token issued, then the payment asset, then the amount; on success
runs `_mint` and transfers 1 unit of the new NFT to the caller. -/
def mint (payment_token : TokenIdentifier) (payment_amount : Nat)
    (sha256 : Bytes → Bytes) (block_timestamp : Nat) (nft_nonce : Nat)
    (caller : Address) (s : State) :
    Except Err (State × CreatedNft × Transfer) :=
  match require_token_issued s with
  | .error e => .error e
  | .ok _ =>
      if payment_token = s.payment_token_id then
        if s.nft_token_price ≤ payment_amount then
          let r := _mint sha256 block_timestamp nft_nonce s
          let nft_token_id := r.1.nft_token_id.getD .egld
          .ok (r.1, r.2.1, ⟨caller, nft_token_id, r.2.2, NFT_AMOUNT⟩)
        else .error .insufficientPayment
      else .error .wrongAsset

/-- A contract configuration: the persistent storage together with the
issuance requests already sent to the external authority whose callbacks
have not yet been delivered. More than one request can be outstanding,
since issueNft only checks the (still empty) token id, not whether a
request is pending. -/
structure Sys where
  st : State
  pending : List IssueRequest
deriving DecidableEq, Repr

/-- Observable label of one atomic step. A minted label records the
sequence id read at the start of the mint, the created unit and the
transfer to the caller; the callback labels name the outstanding request
being resolved; an abort label records the `require!` that fired (such
calls revert, changing no state and sending no value). -/
inductive Label where
  | mintedL (seq : Nat) (u : CreatedNft) (tr : Transfer)
  | issueRequestedL (req : IssueRequest)
  | issueOkL (req : IssueRequest) (tid : TokenIdentifier)
  | issueErrL (req : IssueRequest) (trs : List Transfer)
  | rolesL
  | pauseL
  | resumeL
  | withdrawL
  | abortL (e : Err)
deriving Repr

/-- One atomic step of the contract. Elrond serializes calls, so every
entry point is a single transition; the asynchronous issuance splits into
two transitions — the request, which joins the outstanding set, and the
delivery of its callback, which may happen after arbitrarily many
interleaved calls (so a duplicate issueNft can run in the gap and leave a
second request outstanding). The authority answers each outstanding
request exactly once, in any order, with an arbitrary result. `withdraw`
touches only external balances, never storage. -/
inductive Step (sha256 : Bytes → Bytes) (owner : Address) :
    Sys → Label → Sys → Prop where
  | minted {pt amt ts nonce caller s s' u tr p} :
      mint pt amt sha256 ts nonce caller s = .ok (s', u, tr) →
      Step sha256 owner ⟨s, p⟩
        (.mintedL ((s.mint_count + 1) % U32_MOD) u tr) ⟨s', p⟩
  | mint_aborted {pt amt ts nonce caller s e p} :
      mint pt amt sha256 ts nonce caller s = .error e →
      Step sha256 owner ⟨s, p⟩ (.abortL e) ⟨s, p⟩
  | issue_requested {name ticker v caller s s₁ req p} :
      issue_nft name ticker v caller owner s = .ok (s₁, req) →
      Step sha256 owner ⟨s, p⟩ (.issueRequestedL req) ⟨s₁, req :: p⟩
  | issue_aborted {name ticker v caller s e p} :
      issue_nft name ticker v caller owner s = .error e →
      Step sha256 owner ⟨s, p⟩ (.abortL e) ⟨s, p⟩
  | callback_ok {s req tid rAmt rTid p} :
      req ∈ p →
      Step sha256 owner ⟨s, p⟩ (.issueOkL req tid)
        ⟨(issue_callback (.ok tid) rAmt rTid owner s).1, p.erase req⟩
  | callback_err {s req code rAmt rTid p} :
      req ∈ p →
      Step sha256 owner ⟨s, p⟩
        (.issueErrL req (issue_callback (.err code) rAmt rTid owner s).2)
        ⟨(issue_callback (.err code) rAmt rTid owner s).1, p.erase req⟩
  | roles {caller s p} :
      set_local_roles caller owner s = .ok () →
      Step sha256 owner ⟨s, p⟩ .rolesL ⟨s, p⟩
  | roles_aborted {caller s e p} :
      set_local_roles caller owner s = .error e →
      Step sha256 owner ⟨s, p⟩ (.abortL e) ⟨s, p⟩
  | pause {caller s s' p} :
      pause_minting caller owner s = .ok s' →
      Step sha256 owner ⟨s, p⟩ .pauseL ⟨s', p⟩
  | pause_aborted {caller s e p} :
      pause_minting caller owner s = .error e →
      Step sha256 owner ⟨s, p⟩ (.abortL e) ⟨s, p⟩
  | resume {caller s s' p} :
      start_minting caller owner s = .ok s' →
      Step sha256 owner ⟨s, p⟩ .resumeL ⟨s', p⟩
  | resume_aborted {caller s e p} :
      start_minting caller owner s = .error e →
      Step sha256 owner ⟨s, p⟩ (.abortL e) ⟨s, p⟩
  | withdrew {s p} :
      Step sha256 owner ⟨s, p⟩ .withdrawL ⟨s, p⟩

/-- Zero or more atomic steps. -/
def StepStar (sha256 : Bytes → Bytes) (owner : Address) :
    Sys → Sys → Prop :=
  Relation.ReflTransGen fun a b => ∃ l, Step sha256 owner a l b

/-! ## Shape and inversion lemmas for the operations -/

lemma mint_issued_eq (pt : TokenIdentifier) (amt : Nat) (sha256 : Bytes → Bytes)
    (ts nonce : Nat) (caller : Address) {s : State} {t : TokenIdentifier}
    (h : s.nft_token_id = some t) (hpt : pt = s.payment_token_id)
    (hamt : s.nft_token_price ≤ amt) :
    mint pt amt sha256 ts nonce caller s =
      .ok ({ s with mint_count := (s.mint_count + 1) % U32_MOD },
        ⟨t, NFT_AMOUNT,
          s.nft_token_name ++ HASH_TAG
            ++ to_string_bytes ((s.mint_count + 1) % U32_MOD),
          s.royalties,
          sha256 (CREATION_TIME_KEY_NAME ++ to_ne_bytes ts),
          CREATION_TIME_KEY_NAME ++ to_ne_bytes ts,
          [s.image_base_uri ++ URI_SLASH
              ++ to_string_bytes ((s.mint_count + 1) % U32_MOD)
              ++ IMAGE_FILE_EXTENSION,
            s.image_base_uri ++ URI_SLASH
              ++ to_string_bytes ((s.mint_count + 1) % U32_MOD)
              ++ METADATA_FILE_EXTENSION]⟩,
        ⟨caller, t, nonce, NFT_AMOUNT⟩) := by
  subst hpt
  simp [mint, require_token_issued, h, _mint, hamt]

lemma mint_not_issued (pt : TokenIdentifier) (amt : Nat)
    (sha256 : Bytes → Bytes) (ts nonce : Nat) (caller : Address) {s : State}
    (h : s.nft_token_id = none) :
    mint pt amt sha256 ts nonce caller s = .error .tokenNotIssued := by
  simp [mint, require_token_issued, h]

lemma mint_wrong_asset (amt : Nat) (sha256 : Bytes → Bytes) (ts nonce : Nat)
    (caller : Address) {pt : TokenIdentifier} {s : State} {t : TokenIdentifier}
    (h : s.nft_token_id = some t) (hpt : pt ≠ s.payment_token_id) :
    mint pt amt sha256 ts nonce caller s = .error .wrongAsset := by
  simp [mint, require_token_issued, h, hpt]

lemma mint_insufficient (sha256 : Bytes → Bytes) (ts nonce : Nat)
    (caller : Address) {pt : TokenIdentifier} {amt : Nat} {s : State}
    {t : TokenIdentifier} (h : s.nft_token_id = some t)
    (hpt : pt = s.payment_token_id) (hamt : amt < s.nft_token_price) :
    mint pt amt sha256 ts nonce caller s = .error .insufficientPayment := by
  subst hpt
  simp [mint, require_token_issued, h, not_le_of_gt hamt]

lemma mint_ok_inv {pt : TokenIdentifier} {amt : Nat} {sha256 : Bytes → Bytes}
    {ts nonce : Nat} {caller : Address} {s s' : State} {u : CreatedNft}
    {tr : Transfer}
    (h : mint pt amt sha256 ts nonce caller s = .ok (s', u, tr)) :
    s' = { s with mint_count := (s.mint_count + 1) % U32_MOD } ∧
      s.nft_token_id.isSome ∧ pt = s.payment_token_id ∧
      s.nft_token_price ≤ amt := by
  by_cases hid : s.nft_token_id = none
  · rw [mint_not_issued pt amt sha256 ts nonce caller hid] at h
    exact absurd h (by simp)
  · obtain ⟨t, ht⟩ := Option.ne_none_iff_exists'.mp hid
    by_cases hpt : pt = s.payment_token_id
    · by_cases hamt : s.nft_token_price ≤ amt
      · rw [mint_issued_eq pt amt sha256 ts nonce caller ht hpt hamt] at h
        simp only [Except.ok.injEq, Prod.mk.injEq] at h
        exact ⟨h.1.symm, by simp [ht], hpt, hamt⟩
      · rw [mint_insufficient sha256 ts nonce caller ht hpt
          (lt_of_not_le hamt)] at h
        exact absurd h (by simp)
    · rw [mint_wrong_asset amt sha256 ts nonce caller ht hpt] at h
      exact absurd h (by simp)

lemma mint_error_inv {pt : TokenIdentifier} {amt : Nat} {sha256 : Bytes → Bytes}
    {ts nonce : Nat} {caller : Address} {s : State} {e : Err}
    (h : mint pt amt sha256 ts nonce caller s = .error e) :
    e = .tokenNotIssued ∨ e = .wrongAsset ∨ e = .insufficientPayment := by
  by_cases hid : s.nft_token_id = none
  · rw [mint_not_issued pt amt sha256 ts nonce caller hid] at h
    simp only [Except.error.injEq] at h
    exact Or.inl h.symm
  · obtain ⟨t, ht⟩ := Option.ne_none_iff_exists'.mp hid
    by_cases hpt : pt = s.payment_token_id
    · by_cases hamt : s.nft_token_price ≤ amt
      · rw [mint_issued_eq pt amt sha256 ts nonce caller ht hpt hamt] at h
        exact absurd h (by simp)
      · rw [mint_insufficient sha256 ts nonce caller ht hpt
          (lt_of_not_le hamt)] at h
        simp only [Except.error.injEq] at h
        exact Or.inr (Or.inr h.symm)
    · rw [mint_wrong_asset amt sha256 ts nonce caller ht hpt] at h
      simp only [Except.error.injEq] at h
      exact Or.inr (Or.inl h.symm)

lemma issue_nft_ok_inv {name ticker : Bytes} {v : Nat} {caller owner : Address}
    {s s₁ : State} {req : IssueRequest}
    (h : issue_nft name ticker v caller owner s = .ok (s₁, req)) :
    caller = owner ∧ s.nft_token_id = none ∧
      s₁ = { s with nft_token_name := name } ∧ req = ⟨v, name, ticker⟩ := by
  by_cases hc : caller = owner
  · by_cases hid : s.nft_token_id.isNone
    · refine ⟨hc, by simpa using hid, ?_⟩
      rw [issue_nft, if_pos hc, if_pos hid] at h
      simp only [Except.ok.injEq, Prod.mk.injEq] at h
      exact ⟨h.1.symm, h.2.symm⟩
    · rw [issue_nft, if_pos hc, if_neg hid] at h
      exact absurd h (by simp)
  · rw [issue_nft, if_neg hc] at h
    exact absurd h (by simp)

lemma pause_minting_ok_inv {caller owner : Address} {s s' : State}
    (h : pause_minting caller owner s = .ok s') :
    s' = { s with paused := true } := by
  by_cases hc : caller = owner
  · rw [pause_minting, if_pos hc] at h
    simp only [Except.ok.injEq] at h
    exact h.symm
  · rw [pause_minting, if_neg hc] at h
    exact absurd h (by simp)

lemma start_minting_ok_inv {caller owner : Address} {s s' : State}
    (h : start_minting caller owner s = .ok s') :
    s' = { s with paused := false } := by
  by_cases hc : caller = owner
  · by_cases hid : s.nft_token_id.isNone
    · rw [start_minting, if_pos hc, if_pos hid] at h
      exact absurd h (by simp)
    · rw [start_minting, if_pos hc, if_neg hid] at h
      simp only [Except.ok.injEq] at h
      exact h.symm
  · rw [start_minting, if_neg hc] at h
    exact absurd h (by simp)

lemma issue_callback_ok_state (tid : TokenIdentifier) (rAmt : Nat)
    (rTid : TokenIdentifier) (owner : Address) (s : State) :
    issue_callback (.ok tid) rAmt rTid owner s =
      ({ s with nft_token_id := some tid }, []) := rfl

lemma issue_callback_err_state (code rAmt : Nat) (rTid : TokenIdentifier)
    (owner : Address) (s : State) :
    (issue_callback (.err code) rAmt rTid owner s).1 = s := by
  rw [issue_callback]
  split <;> rfl

/-- A set token id is never cleared by any step, and its value changes
only when the success callback of a still-outstanding request is
delivered — and then to that callback's allocated id. -/
lemma Step.nft_token_id_cases {sha256 : Bytes → Bytes} {owner : Address}
    {σ : Sys} {l : Label} {σ' : Sys} {t : TokenIdentifier}
    (st : Step sha256 owner σ l σ') (h : σ.st.nft_token_id = some t) :
    σ'.st.nft_token_id = some t ∨
      ∃ req tid, req ∈ σ.pending ∧ l = .issueOkL req tid ∧
        σ'.st.nft_token_id = some tid := by
  cases st with
  | minted hm => exact Or.inl (by rw [(mint_ok_inv hm).1]; exact h)
  | mint_aborted _ => exact Or.inl h
  | issue_requested hi =>
      exact absurd h (by rw [(issue_nft_ok_inv hi).2.1]; simp)
  | issue_aborted _ => exact Or.inl h
  | callback_ok hmem =>
      exact Or.inr ⟨_, _, hmem, rfl, by rw [issue_callback_ok_state]⟩
  | callback_err _ =>
      exact Or.inl (by rw [issue_callback_err_state]; exact h)
  | roles _ => exact Or.inl h
  | roles_aborted _ => exact Or.inl h
  | pause hp => exact Or.inl (by rw [pause_minting_ok_inv hp]; exact h)
  | pause_aborted _ => exact Or.inl h
  | resume hr => exact Or.inl (by rw [start_minting_ok_inv hr]; exact h)
  | resume_aborted _ => exact Or.inl h
  | withdrew => exact Or.inl h

/-- With the token issued and no issuance request outstanding, every step
preserves both facts: no callback can be delivered, a new request is
blocked by the AlreadyIssued guard, and every other call leaves the id
alone. -/
lemma Step.sequential_fixed {sha256 : Bytes → Bytes} {owner : Address}
    {σ : Sys} {l : Label} {σ' : Sys} {t : TokenIdentifier}
    (st : Step sha256 owner σ l σ') (hnil : σ.pending = [])
    (h : σ.st.nft_token_id = some t) :
    σ'.st.nft_token_id = some t ∧ σ'.pending = [] := by
  obtain ⟨s, p⟩ := σ
  obtain rfl : p = [] := hnil
  have hs : s.nft_token_id = some t := h
  cases st with
  | minted hm => exact ⟨by rw [(mint_ok_inv hm).1]; exact hs, rfl⟩
  | mint_aborted _ => exact ⟨hs, rfl⟩
  | issue_requested hi =>
      exact absurd hs (by rw [(issue_nft_ok_inv hi).2.1]; simp)
  | issue_aborted _ => exact ⟨hs, rfl⟩
  | callback_ok hmem => exact absurd hmem (List.not_mem_nil _)
  | callback_err hmem => exact absurd hmem (List.not_mem_nil _)
  | roles _ => exact ⟨hs, rfl⟩
  | roles_aborted _ => exact ⟨hs, rfl⟩
  | pause hp => exact ⟨by rw [pause_minting_ok_inv hp]; exact hs, rfl⟩
  | pause_aborted _ => exact ⟨hs, rfl⟩
  | resume hr => exact ⟨by rw [start_minting_ok_inv hr]; exact hs, rfl⟩
  | resume_aborted _ => exact ⟨hs, rfl⟩
  | withdrew => exact ⟨hs, rfl⟩

/-- Steps other than a successful mint never change the mint counter. -/
lemma Step.mint_count_frame {sha256 : Bytes → Bytes} {owner : Address}
    {σ : Sys} {l : Label} {σ' : Sys}
    (st : Step sha256 owner σ l σ')
    (h : ∀ seq u tr, l ≠ .mintedL seq u tr) :
    σ'.st.mint_count = σ.st.mint_count := by
  cases st with
  | minted hm => exact absurd rfl (h _ _ _)
  | mint_aborted _ => rfl
  | issue_requested hi => rw [(issue_nft_ok_inv hi).2.2.1]
  | issue_aborted _ => rfl
  | callback_ok _ => rw [issue_callback_ok_state]
  | callback_err _ => rw [issue_callback_err_state]
  | roles _ => rfl
  | roles_aborted _ => rfl
  | pause hp => rw [pause_minting_ok_inv hp]
  | pause_aborted _ => rfl
  | resume hr => rw [start_minting_ok_inv hr]
  | resume_aborted _ => rfl
  | withdrew => rfl

/-! ## Concrete sample data used by witnesses -/

/-- Concrete stand-in for the external SHA-256 primitive. -/
def sampleSha : Bytes → Bytes := fun _ => [1, 2]

/-- A configured, issued state: price 5 EGLD, two prior mints. -/
def sampleIssued : State :=
  { payment_token_id := .egld
    nft_token_price := 5
    royalties := 100
    image_base_uri := str_bytes "img"
    metadata_base_uri := str_bytes "meta"
    mint_count := 2
    nft_token_id := some (.esdt (str_bytes "NFT-123456"))
    nft_token_name := str_bytes "Foo"
    paused := false }

/-- State after one successful mint from `sampleIssued`. -/
def sampleAfter : State := { sampleIssued with mint_count := 3 }

/-- The unit the third mint from `sampleIssued` creates. -/
def sampleUnit : CreatedNft :=
  ⟨.esdt (str_bytes "NFT-123456"), 1, str_bytes "Foo#3", 100, [1, 2],
    CREATION_TIME_KEY_NAME ++ to_ne_bytes 77,
    [str_bytes "img/3.png", str_bytes "img/3.json"]⟩

/-- The transfer of that unit to caller 42, runtime nonce 9. -/
def sampleTr : Transfer := ⟨42, .esdt (str_bytes "NFT-123456"), 9, 1⟩

/-- A configured but not yet issued state. -/
def sampleUnissued : State := { sampleIssued with nft_token_id := none }

/-! ## Claims -/

/-- C8: initialize fails with InvalidRoyalty when royalty_bps > 10000, and
(once the royalty bound holds, mirroring the source's check order) with
InvalidAsset when the payment asset is neither the native asset nor a
syntactically valid fungible-asset identifier; a failed init aborts
deployment with no state persisted (an `Err` result carries no state).
On success it persists the payment asset, unit price, royalty, and both
base URIs, and sets mint_count to 0. -/
theorem C8_init_checks (ptid : TokenIdentifier) (price roy : Nat)
    (img meta : Bytes) :
    (ROYALTIES_MAX < roy →
      init ptid price roy img meta = .error .invalidRoyalty) ∧
    (roy ≤ ROYALTIES_MAX →
      ¬(ptid.is_egld || ptid.is_valid_esdt_identifier) = true →
      init ptid price roy img meta = .error .invalidAsset) ∧
    (roy ≤ ROYALTIES_MAX →
      (ptid.is_egld || ptid.is_valid_esdt_identifier) = true →
      init ptid price roy img meta = .ok
        { payment_token_id := ptid
          nft_token_price := price
          royalties := roy
          image_base_uri := img
          metadata_base_uri := meta
          mint_count := 0
          nft_token_id := none
          nft_token_name := []
          paused := false }) := by
  refine ⟨fun h => ?_, fun h1 h2 => ?_, fun h1 h2 => ?_⟩
  · rw [init, if_neg (not_le_of_gt h)]
  · rw [init, if_pos h1, if_neg h2]
  · rw [init, if_pos h1, if_pos h2]

/-- Witness for C8 at concrete inputs: royalty 20000 is rejected, an
invalid identifier is rejected, and a valid EGLD configuration persists
all fields with mint_count 0. -/
theorem C8_init_checks_witness :
    init .egld 1 20000 [] [] = .error .invalidRoyalty ∧
    init (.esdt (str_bytes "ab")) 1 0 [] [] = .error .invalidAsset ∧
    init .egld 7 300 (str_bytes "i") (str_bytes "m") = .ok
      { payment_token_id := .egld
        nft_token_price := 7
        royalties := 300
        image_base_uri := str_bytes "i"
        metadata_base_uri := str_bytes "m"
        mint_count := 0
        nft_token_id := none
        nft_token_name := []
        paused := false } :=
  ⟨(C8_init_checks .egld 1 20000 [] []).1 (by decide),
    (C8_init_checks (.esdt (str_bytes "ab")) 1 0 [] []).2.1 (by decide)
      (by decide),
    (C8_init_checks .egld 7 300 (str_bytes "i") (str_bytes "m")).2.2
      (by decide) (by decide)⟩

/-- C2: mint checks its preconditions in source order — TokenNotIssued when
the token id is empty, then WrongAsset when the payment asset differs from
the configured one, then InsufficientPayment when the amount is below the
unit price; every failure of mint is one of exactly these three; and an
aborted call is a stutter step: the state is unchanged (hence mint_count
unchanged) and, the abort label carrying no transfer, no value moves. -/
theorem C2_mint_precondition_order (pt : TokenIdentifier) (amt : Nat)
    (sha256 : Bytes → Bytes) (ts nonce : Nat) (caller owner : Address)
    (s : State) :
    (s.nft_token_id = none →
      mint pt amt sha256 ts nonce caller s = .error .tokenNotIssued) ∧
    (∀ t, s.nft_token_id = some t → pt ≠ s.payment_token_id →
      mint pt amt sha256 ts nonce caller s = .error .wrongAsset) ∧
    (∀ t, s.nft_token_id = some t → pt = s.payment_token_id →
      amt < s.nft_token_price →
      mint pt amt sha256 ts nonce caller s = .error .insufficientPayment) ∧
    (∀ e, mint pt amt sha256 ts nonce caller s = .error e →
      e = .tokenNotIssued ∨ e = .wrongAsset ∨ e = .insufficientPayment) ∧
    (∀ e p σ', Step sha256 owner ⟨s, p⟩ (.abortL e) σ' → σ' = ⟨s, p⟩) := by
  refine ⟨fun h => mint_not_issued pt amt sha256 ts nonce caller h,
    fun t ht hpt => mint_wrong_asset amt sha256 ts nonce caller ht hpt,
    fun t ht hpt hamt => mint_insufficient sha256 ts nonce caller ht hpt hamt,
    fun e h => mint_error_inv h, fun e p σ' st => ?_⟩
  cases st <;> rfl

/-- Witness for C2: the three failures at concrete inputs, each leaving a
concrete aborted step's state unchanged. -/
theorem C2_mint_precondition_order_witness :
    mint .egld 5 sampleSha 77 9 42 sampleUnissued = .error .tokenNotIssued ∧
    mint (.esdt (str_bytes "OTH-654321")) 5 sampleSha 77 9 42 sampleIssued =
      .error .wrongAsset ∧
    mint .egld 4 sampleSha 77 9 42 sampleIssued =
      .error .insufficientPayment := by
  have h := C2_mint_precondition_order .egld 5 sampleSha 77 9 42 0 sampleUnissued
  have h2 := C2_mint_precondition_order (.esdt (str_bytes "OTH-654321")) 5
    sampleSha 77 9 42 0 sampleIssued
  have h3 := C2_mint_precondition_order .egld 4 sampleSha 77 9 42 0 sampleIssued
  exact ⟨h.1 rfl, h2.2.1 _ rfl (by decide), h3.2.2.1 _ rfl rfl (by decide)⟩

/-- C3: a successful mint names the unit collectible_name ++ "#" ++
decimal(sequence id) and derives both the .png and the .json URI from
image_base_uri (not metadata_base_uri), the sequence id being the u32
value mint_count + 1 read at the start of the mint; with collectible name
"Foo" and two prior mints this gives name "Foo#3". -/
theorem C3_unit_naming (pt : TokenIdentifier) (amt : Nat)
    (sha256 : Bytes → Bytes) (ts nonce : Nat) (caller : Address)
    (s s' : State) (u : CreatedNft) (tr : Transfer)
    (h : mint pt amt sha256 ts nonce caller s = .ok (s', u, tr)) :
    u.name = s.nft_token_name ++ HASH_TAG
      ++ to_string_bytes ((s.mint_count + 1) % U32_MOD) ∧
    u.uris = [s.image_base_uri ++ URI_SLASH
        ++ to_string_bytes ((s.mint_count + 1) % U32_MOD)
        ++ IMAGE_FILE_EXTENSION,
      s.image_base_uri ++ URI_SLASH
        ++ to_string_bytes ((s.mint_count + 1) % U32_MOD)
        ++ METADATA_FILE_EXTENSION] ∧
    (s.nft_token_name = str_bytes "Foo" → s.mint_count = 2 →
      u.name = str_bytes "Foo#3") := by
  obtain ⟨t, ht⟩ := Option.isSome_iff_exists.mp (mint_ok_inv h).2.1
  have hpt := (mint_ok_inv h).2.2.1
  have hamt := (mint_ok_inv h).2.2.2
  rw [mint_issued_eq pt amt sha256 ts nonce caller ht hpt hamt] at h
  simp only [Except.ok.injEq, Prod.mk.injEq] at h
  obtain ⟨-, hu, -⟩ := h
  subst hu
  refine ⟨rfl, rfl, fun hname hcount => ?_⟩
  show s.nft_token_name ++ HASH_TAG
    ++ to_string_bytes ((s.mint_count + 1) % U32_MOD) = str_bytes "Foo#3"
  rw [hname, hcount]
  decide

/-- Witness for C3: the concrete third mint from `sampleIssued` produces
name "Foo#3" and URIs "img/3.png", "img/3.json". -/
theorem C3_unit_naming_witness :
    sampleUnit.name = sampleIssued.nft_token_name ++ HASH_TAG
      ++ to_string_bytes ((sampleIssued.mint_count + 1) % U32_MOD) ∧
    sampleUnit.uris = [sampleIssued.image_base_uri ++ URI_SLASH
        ++ to_string_bytes ((sampleIssued.mint_count + 1) % U32_MOD)
        ++ IMAGE_FILE_EXTENSION,
      sampleIssued.image_base_uri ++ URI_SLASH
        ++ to_string_bytes ((sampleIssued.mint_count + 1) % U32_MOD)
        ++ METADATA_FILE_EXTENSION] ∧
    sampleUnit.name = str_bytes "Foo#3" := by
  have h := C3_unit_naming .egld 5 sampleSha 77 9 42 sampleIssued sampleAfter
    sampleUnit sampleTr rfl
  exact ⟨h.1, h.2.1, h.2.2 rfl rfl⟩

/-- C4: the attribute buffer of every minted unit is exactly the bytes
"creatime:" followed by the native byte encoding of the block timestamp,
and the unit's content hash is the SHA-256 primitive applied to exactly
that buffer. -/
theorem C4_attributes_hash (pt : TokenIdentifier) (amt : Nat)
    (sha256 : Bytes → Bytes) (ts nonce : Nat) (caller : Address)
    (s s' : State) (u : CreatedNft) (tr : Transfer)
    (h : mint pt amt sha256 ts nonce caller s = .ok (s', u, tr)) :
    u.attributes = CREATION_TIME_KEY_NAME ++ to_ne_bytes ts ∧
    u.hash = sha256 u.attributes := by
  obtain ⟨t, ht⟩ := Option.isSome_iff_exists.mp (mint_ok_inv h).2.1
  rw [mint_issued_eq pt amt sha256 ts nonce caller ht (mint_ok_inv h).2.2.1
    (mint_ok_inv h).2.2.2] at h
  simp only [Except.ok.injEq, Prod.mk.injEq] at h
  obtain ⟨-, hu, -⟩ := h
  subst hu
  exact ⟨rfl, rfl⟩

/-- Witness for C4 at the concrete third mint from `sampleIssued`. -/
theorem C4_attributes_hash_witness :
    sampleUnit.attributes = CREATION_TIME_KEY_NAME ++ to_ne_bytes 77 ∧
    sampleUnit.hash = sampleSha sampleUnit.attributes :=
  C4_attributes_hash .egld 5 sampleSha 77 9 42 sampleIssued sampleAfter
    sampleUnit sampleTr rfl

/-- C7: mint never reads the paused flag — on any state its outcome is the
one obtained with paused cleared, with the flag passed through untouched —
and whenever the token is issued and the payment matches the configuration
it succeeds, with explicitly the same unit and transfer for either flag
value. -/
theorem C7_mint_ignores_paused (pt : TokenIdentifier) (amt : Nat)
    (sha256 : Bytes → Bytes) (ts nonce : Nat) (caller : Address)
    (s : State) :
    (∀ b : Bool, mint pt amt sha256 ts nonce caller { s with paused := b } =
      match mint pt amt sha256 ts nonce caller s with
      | .ok (s', u, tr) => .ok ({ s' with paused := b }, u, tr)
      | .error e => .error e) ∧
    (∀ t, s.nft_token_id = some t → pt = s.payment_token_id →
      s.nft_token_price ≤ amt →
      mint pt amt sha256 ts nonce caller s =
        .ok ({ s with mint_count := (s.mint_count + 1) % U32_MOD },
          ⟨t, NFT_AMOUNT,
            s.nft_token_name ++ HASH_TAG
              ++ to_string_bytes ((s.mint_count + 1) % U32_MOD),
            s.royalties,
            sha256 (CREATION_TIME_KEY_NAME ++ to_ne_bytes ts),
            CREATION_TIME_KEY_NAME ++ to_ne_bytes ts,
            [s.image_base_uri ++ URI_SLASH
                ++ to_string_bytes ((s.mint_count + 1) % U32_MOD)
                ++ IMAGE_FILE_EXTENSION,
              s.image_base_uri ++ URI_SLASH
                ++ to_string_bytes ((s.mint_count + 1) % U32_MOD)
                ++ METADATA_FILE_EXTENSION]⟩,
          ⟨caller, t, nonce, NFT_AMOUNT⟩)) := by
  constructor
  · intro b
    by_cases hid : s.nft_token_id = none
    · have hid' : ({ s with paused := b } : State).nft_token_id = none := hid
      rw [mint_not_issued pt amt sha256 ts nonce caller hid',
        mint_not_issued pt amt sha256 ts nonce caller hid]
    · obtain ⟨t, ht⟩ := Option.ne_none_iff_exists'.mp hid
      have ht' : ({ s with paused := b } : State).nft_token_id = some t := ht
      by_cases hpt : pt = s.payment_token_id
      · by_cases hamt : s.nft_token_price ≤ amt
        · rw [mint_issued_eq pt amt sha256 ts nonce caller ht' hpt hamt,
            mint_issued_eq pt amt sha256 ts nonce caller ht hpt hamt]
        · rw [mint_insufficient sha256 ts nonce caller ht' hpt
              (lt_of_not_le hamt),
            mint_insufficient sha256 ts nonce caller ht hpt
              (lt_of_not_le hamt)]
      · rw [mint_wrong_asset amt sha256 ts nonce caller ht' hpt,
          mint_wrong_asset amt sha256 ts nonce caller ht hpt]
  · exact fun t ht hpt hamt =>
      mint_issued_eq pt amt sha256 ts nonce caller ht hpt hamt

/-- Witness for C7: minting from `sampleIssued` with paused set gives the
identical unit and transfer as with paused cleared, and the successful
outcome is reached with the correct payment. -/
theorem C7_mint_ignores_paused_witness :
    mint .egld 5 sampleSha 77 9 42 { sampleIssued with paused := true } =
      .ok ({ sampleAfter with paused := true }, sampleUnit, sampleTr) ∧
    mint .egld 5 sampleSha 77 9 42 sampleIssued =
      .ok (sampleAfter, sampleUnit, sampleTr) := by
  have h := C7_mint_ignores_paused .egld 5 sampleSha 77 9 42 sampleIssued
  have hok : mint .egld 5 sampleSha 77 9 42 sampleIssued =
      .ok (sampleAfter, sampleUnit, sampleTr) := by
    have := h.2 (.esdt (str_bytes "NFT-123456")) rfl rfl (by decide)
    rw [this]
    rfl
  constructor
  · rw [h.1 true, hok]
  · exact hok

/-- C5: a failed issuance callback leaves the state untouched — in
particular an empty token_class_id stays empty, so a subsequent issueNft
by the operator succeeds again — and pays back exactly the returned
native-asset amount A to the owner when A is positive, while a returned
non-native asset triggers no refund transfer at all. -/
theorem C5_issue_callback_failure (code rAmt : Nat) (rTid : TokenIdentifier)
    (owner : Address) (s : State) :
    (issue_callback (.err code) rAmt rTid owner s).1 = s ∧
    (rTid.is_egld = true → 0 < rAmt →
      (issue_callback (.err code) rAmt rTid owner s).2 =
        [⟨owner, rTid, 0, rAmt⟩]) ∧
    (rTid.is_egld = false →
      (issue_callback (.err code) rAmt rTid owner s).2 = []) ∧
    (∀ name ticker v, s.nft_token_id = none →
      issue_nft name ticker v owner owner
          (issue_callback (.err code) rAmt rTid owner s).1 =
        .ok ({ s with nft_token_name := name }, ⟨v, name, ticker⟩)) := by
  refine ⟨issue_callback_err_state code rAmt rTid owner s,
    fun hegld hpos => ?_, fun hegld => ?_, fun name ticker v hid => ?_⟩
  · rw [issue_callback, if_pos ⟨hegld, hpos⟩]
  · rw [issue_callback, if_neg ?_]
    exact fun hc => by rw [hegld] at hc; exact absurd hc.1 (by simp)
  · rw [issue_callback_err_state code rAmt rTid owner s, issue_nft,
      if_pos rfl, if_pos (by rw [hid]; rfl)]

/-- Witness for C5: a failed callback returning 7 EGLD refunds exactly 7
to the owner, keeps the state unissued, and a retry of issueNft then
succeeds; a returned non-native asset is not refunded. -/
theorem C5_issue_callback_failure_witness :
    (issue_callback (.err 4) 7 .egld 3 sampleUnissued).1 = sampleUnissued ∧
    (issue_callback (.err 4) 7 .egld 3 sampleUnissued).2 =
      [⟨3, .egld, 0, 7⟩] ∧
    (issue_callback (.err 4) 7 (.esdt (str_bytes "WEG-abcdef")) 3
        sampleUnissued).2 = [] ∧
    issue_nft (str_bytes "Bar") (str_bytes "BAR") 5 3 3
        (issue_callback (.err 4) 7 .egld 3 sampleUnissued).1 =
      .ok ({ sampleUnissued with nft_token_name := str_bytes "Bar" },
        ⟨5, str_bytes "Bar", str_bytes "BAR"⟩) := by
  have h := C5_issue_callback_failure 4 7 .egld 3 sampleUnissued
  have h2 := C5_issue_callback_failure 4 7 (.esdt (str_bytes "WEG-abcdef")) 3
    sampleUnissued
  exact ⟨h.1, h.2.1 rfl (by decide), h2.2.2.1 rfl,
    h.2.2.2 (str_bytes "Bar") (str_bytes "BAR") 5 rfl⟩

/-- C6 (amended): issueNft fails with AlreadyIssued once token_class_id
is set, and no step ever clears a set id — its value can change only when
the success callback of another issuance request that was still
outstanding when the id became set is delivered, and then only to that
callback's allocated id. Whenever the token is issued and no issuance
request is outstanding — in particular when each request's callback
resolves before the next issueNft, the regime of §5's ordering
guarantee — Issued is terminal: no later step of any execution changes
the identifier. (As stated, terminality over all reachable executions is
false: see the counterexample with two outstanding requests.) -/
theorem C6_issued_terminal (sha256 : Bytes → Bytes) (owner : Address) :
    (∀ name ticker v s, (s : State).nft_token_id.isSome →
      issue_nft name ticker v owner owner s = .error .alreadyIssued) ∧
    (∀ σ l σ' t, Step sha256 owner σ l σ' → σ.st.nft_token_id = some t →
      σ'.st.nft_token_id = some t ∨
        ∃ req tid, req ∈ σ.pending ∧ l = .issueOkL req tid ∧
          σ'.st.nft_token_id = some tid) ∧
    (∀ σ l σ' t, Step sha256 owner σ l σ' → σ.pending = [] →
      σ.st.nft_token_id = some t →
      σ'.st.nft_token_id = some t ∧ σ'.pending = []) ∧
    (∀ σ σ' t, StepStar sha256 owner σ σ' → σ.pending = [] →
      σ.st.nft_token_id = some t → σ'.st.nft_token_id = some t) := by
  refine ⟨fun name ticker v s hs => ?_,
    fun σ l σ' t st h => st.nft_token_id_cases h,
    fun σ l σ' t st hnil h => st.sequential_fixed hnil h,
    fun σ σ' t hstar hnil h => ?_⟩
  · obtain ⟨t, ht⟩ := Option.isSome_iff_exists.mp hs
    simp [issue_nft, ht]
  · suffices hσ' : σ'.st.nft_token_id = some t ∧ σ'.pending = [] from hσ'.1
    induction hstar with
    | refl => exact ⟨h, hnil⟩
    | tail _ hstep ih =>
        obtain ⟨l, hst⟩ := hstep
        exact hst.sequential_fixed ih.2 ih.1

/-- Witness for the amended C6: on the concrete issued state with nothing
outstanding, a repeated issueNft aborts with AlreadyIssued, the id
survives a pause step, and it survives an empty execution. -/
theorem C6_issued_terminal_witness :
    issue_nft (str_bytes "Bar") (str_bytes "BAR") 5 3 3 sampleIssued =
      .error .alreadyIssued ∧
    ({ sampleIssued with paused := true } : State).nft_token_id =
      some (.esdt (str_bytes "NFT-123456")) ∧
    sampleIssued.nft_token_id = some (.esdt (str_bytes "NFT-123456")) := by
  have h := C6_issued_terminal sampleSha 3
  refine ⟨h.1 (str_bytes "Bar") (str_bytes "BAR") 5 sampleIssued
    (by decide), ?_, ?_⟩
  · exact (h.2.2.1 ⟨sampleIssued, []⟩ .pauseL
      ⟨{ sampleIssued with paused := true }, []⟩
      (.esdt (str_bytes "NFT-123456"))
      (@Step.pause sampleSha 3 3 sampleIssued _ [] rfl) rfl rfl).1
  · exact h.2.2.2 ⟨sampleIssued, []⟩ ⟨sampleIssued, []⟩
      (.esdt (str_bytes "NFT-123456")) Relation.ReflTransGen.refl rfl rfl

/-- C9: withdraw targets EGLD when no asset id is supplied and the named
asset otherwise; with zero contract balance of the target it fails with
NothingToWithdraw, and with positive balance B it transfers exactly B to
the operator and leaves the contract's balance of that asset at 0 (other
assets untouched). -/
theorem C9_withdraw_drains (tok : Option TokenIdentifier) (owner : Address)
    (bal : TokenIdentifier → Nat) :
    (bal (tok.getD .egld) = 0 →
      withdraw tok owner owner bal = .error .nothingToWithdraw) ∧
    (0 < bal (tok.getD .egld) →
      withdraw tok owner owner bal =
        .ok (fun t => if t = tok.getD .egld then 0 else bal t,
          ⟨owner, tok.getD .egld, 0, bal (tok.getD .egld)⟩)) := by
  constructor
  · intro h0
    cases tok with
    | none => rw [withdraw, if_pos rfl, if_neg (by simpa using h0)]
    | some ti => rw [withdraw, if_pos rfl, if_neg (by simpa using h0)]

  · intro hpos
    cases tok with
    | none =>
        rw [withdraw, if_pos rfl,
          if_pos (Nat.pos_iff_ne_zero.mp (by simpa using hpos))]
        simp only [Except.ok.injEq, Prod.mk.injEq]
        refine ⟨funext fun t => ?_, rfl⟩
        by_cases ht : t = TokenIdentifier.egld <;> simp [ht]
    | some ti =>
        rw [withdraw, if_pos rfl,
          if_pos (Nat.pos_iff_ne_zero.mp (by simpa using hpos))]
        simp only [Except.ok.injEq, Prod.mk.injEq]
        refine ⟨funext fun t => ?_, rfl⟩
        by_cases ht : t = ti <;> simp [ht]

/-- Witness for C9 at concrete balances: with no asset id and 5 EGLD the
whole 5 goes to the owner and the EGLD balance is left 0; with a named
asset of balance 0 the call fails. -/
theorem C9_withdraw_drains_witness :
    withdraw none 3 3 (fun _ => 5) =
      .ok (fun t => if t = TokenIdentifier.egld then 0 else 5,
        ⟨3, .egld, 0, 5⟩) ∧
    withdraw (some (.esdt (str_bytes "NFT-123456"))) 3 3 (fun _ => 0) =
      .error .nothingToWithdraw := by
  have h1 := C9_withdraw_drains none 3 (fun _ => 5)
  have h2 := C9_withdraw_drains (some (.esdt (str_bytes "NFT-123456"))) 3
    (fun _ => 0)
  exact ⟨h1.2 (by decide), h2.1 rfl⟩

/-- C10: an issueNft call made while the token id is empty unconditionally
overwrites the stored collectible name with its argument before the async
outcome exists, and a failed callback restores nothing: afterwards the
stored name is the name passed to that issueNft call and the token id is
still empty. -/
theorem C10_name_overwritten_on_failure (name ticker : Bytes) (v : Nat)
    (owner : Address) (s : State) (h : s.nft_token_id = none) :
    issue_nft name ticker v owner owner s =
      .ok ({ s with nft_token_name := name }, ⟨v, name, ticker⟩) ∧
    (∀ code rAmt rTid,
      ((issue_callback (.err code) rAmt rTid owner
          { s with nft_token_name := name }).1).nft_token_name = name ∧
      ((issue_callback (.err code) rAmt rTid owner
          { s with nft_token_name := name }).1).nft_token_id = none) := by
  refine ⟨by rw [issue_nft, if_pos rfl, if_pos (by rw [h]; rfl)],
    fun code rAmt rTid => ?_⟩
  rw [issue_callback_err_state]
  exact ⟨rfl, h⟩

/-- Witness for C10: issuing "Bar" from the concrete unissued state (whose
stored name is "Foo") and failing leaves stored name "Bar" and the id
empty. -/
theorem C10_name_overwritten_on_failure_witness :
    issue_nft (str_bytes "Bar") (str_bytes "BAR") 5 3 3 sampleUnissued =
      .ok ({ sampleUnissued with nft_token_name := str_bytes "Bar" },
        ⟨5, str_bytes "Bar", str_bytes "BAR"⟩) ∧
    ((issue_callback (.err 4) 0 .egld 3
        { sampleUnissued with
          nft_token_name := str_bytes "Bar" }).1).nft_token_name =
      str_bytes "Bar" ∧
    ((issue_callback (.err 4) 0 .egld 3
        { sampleUnissued with
          nft_token_name := str_bytes "Bar" }).1).nft_token_id = none := by
  have h := C10_name_overwritten_on_failure (str_bytes "Bar")
    (str_bytes "BAR") 5 3 sampleUnissued rfl
  exact ⟨h.1, (h.2 4 0 .egld).1, (h.2 4 0 .egld).2⟩

/-! ## The mint counter (C1): helper lemmas and an execution that wraps -/

/-- Name of the unit a successful mint creates, in terms of the counter
read at the start of the mint. -/
lemma mint_ok_unit {pt : TokenIdentifier} {amt : Nat} {sha256 : Bytes → Bytes}
    {ts nonce : Nat} {caller : Address} {s s' : State} {u : CreatedNft}
    {tr : Transfer}
    (h : mint pt amt sha256 ts nonce caller s = .ok (s', u, tr)) :
    u.name = s.nft_token_name ++ HASH_TAG
      ++ to_string_bytes ((s.mint_count + 1) % U32_MOD) := by
  obtain ⟨t, ht⟩ := Option.isSome_iff_exists.mp (mint_ok_inv h).2.1
  rw [mint_issued_eq pt amt sha256 ts nonce caller ht (mint_ok_inv h).2.2.1
    (mint_ok_inv h).2.2.2] at h
  simp only [Except.ok.injEq, Prod.mk.injEq] at h
  obtain ⟨-, hu, -⟩ := h
  rw [← hu]

/-- Any single step either keeps the counter or bumps it by 1
modulo 2^32. -/
lemma Step.mint_count_cases {sha256 : Bytes → Bytes} {owner : Address}
    {σ : Sys} {l : Label} {σ' : Sys} (st : Step sha256 owner σ l σ') :
    σ'.st.mint_count = σ.st.mint_count ∨
      σ'.st.mint_count = (σ.st.mint_count + 1) % U32_MOD := by
  cases st with
  | minted hm => exact Or.inr (by rw [(mint_ok_inv hm).1])
  | mint_aborted _ => exact Or.inl rfl
  | issue_requested hi => exact Or.inl (by rw [(issue_nft_ok_inv hi).2.2.1])
  | issue_aborted _ => exact Or.inl rfl
  | callback_ok _ => exact Or.inl (by rw [issue_callback_ok_state])
  | callback_err _ => exact Or.inl (by rw [issue_callback_err_state])
  | roles _ => exact Or.inl rfl
  | roles_aborted _ => exact Or.inl rfl
  | pause hp => exact Or.inl (by rw [pause_minting_ok_inv hp])
  | pause_aborted _ => exact Or.inl rfl
  | resume hr => exact Or.inl (by rw [start_minting_ok_inv hr])
  | resume_aborted _ => exact Or.inl rfl
  | withdrew => exact Or.inl rfl

/-- Degenerate stand-in for SHA-256 in the wrap execution. -/
def sha0 : Bytes → Bytes := fun _ => []

/-- The deployed state of the wrap execution: price 1 EGLD, everything
else minimal. -/
def s0C1 : State :=
  { payment_token_id := .egld
    nft_token_price := 1
    royalties := 0
    image_base_uri := []
    metadata_base_uri := []
    mint_count := 0
    nft_token_id := none
    nft_token_name := []
    paused := false }

/-- Token id the authority allocates in the wrap execution. -/
def nftTidC1 : TokenIdentifier := .esdt (str_bytes "NFT-123456")

/-- The wrap execution's state right after the successful issuance. -/
def sIssuedC1 : State := { s0C1 with nft_token_id := some nftTidC1 }

/-- Unit created by a mint from `sIssuedC1` with counter c. -/
def uC1 (c : Nat) : CreatedNft :=
  ⟨nftTidC1, NFT_AMOUNT, HASH_TAG ++ to_string_bytes ((c + 1) % U32_MOD), 0,
    [], CREATION_TIME_KEY_NAME ++ to_ne_bytes 0,
    [URI_SLASH ++ to_string_bytes ((c + 1) % U32_MOD) ++ IMAGE_FILE_EXTENSION,
      URI_SLASH ++ to_string_bytes ((c + 1) % U32_MOD)
        ++ METADATA_FILE_EXTENSION]⟩

/-- Transfer of each minted unit to caller 0 in the wrap execution. -/
def trC1 : Transfer := ⟨0, nftTidC1, 0, NFT_AMOUNT⟩

lemma mint_c (c : Nat) :
    mint .egld 1 sha0 0 0 0 { sIssuedC1 with mint_count := c } =
      .ok ({ sIssuedC1 with mint_count := (c + 1) % U32_MOD }, uC1 c, trC1) :=
  mint_issued_eq .egld 1 sha0 0 0 0 rfl rfl (le_refl 1)

/-- State after one successful 1-EGLD mint (identity on failure). -/
def mint1 (s : State) : State :=
  match mint .egld 1 sha0 0 0 0 s with
  | .ok r => r.1
  | .error _ => s

/-- State after n successful 1-EGLD mints. -/
def mintN : Nat → State → State
  | 0, s => s
  | n + 1, s => mint1 (mintN n s)

lemma mint1_c (c : Nat) :
    mint1 { sIssuedC1 with mint_count := c } =
      { sIssuedC1 with mint_count := (c + 1) % U32_MOD } := by
  unfold mint1
  rw [mint_c c]

lemma mintN_eq (n : Nat) :
    mintN n sIssuedC1 = { sIssuedC1 with mint_count := n % U32_MOD } := by
  induction n with
  | zero => rfl
  | succ n ih =>
      show mint1 (mintN n sIssuedC1) = _
      rw [ih, mint1_c]
      have h1 : (n % U32_MOD + 1) % U32_MOD = (n + 1) % U32_MOD := by
        conv_rhs => rw [Nat.add_mod]
        rw [Nat.mod_eq_of_lt (show 1 < U32_MOD by norm_num [U32_MOD])]
      rw [h1]

lemma mint_mintN (n : Nat) :
    mint .egld 1 sha0 0 0 0 (mintN n sIssuedC1) =
      .ok (mintN (n + 1) sIssuedC1, uC1 (n % U32_MOD), trC1) := by
  rw [show mintN (n + 1) sIssuedC1 =
      { sIssuedC1 with mint_count := (n % U32_MOD + 1) % U32_MOD } from by
    show mint1 (mintN n sIssuedC1) = _
    rw [mintN_eq n, mint1_c]]
  rw [mintN_eq n]
  exact mint_c (n % U32_MOD)

/-- Every `mintN` state is reached from `sIssuedC1` by serialized calls. -/
lemma stepstar_mintN (n : Nat) :
    StepStar sha0 0 ⟨sIssuedC1, []⟩ ⟨mintN n sIssuedC1, []⟩ := by
  induction n with
  | zero => exact Relation.ReflTransGen.refl
  | succ n ih =>
      exact Relation.ReflTransGen.tail ih ⟨_, Step.minted (mint_mintN n)⟩

/-- C1 (amended): mint_count starts at 0 after initialize and is a 32-bit
counter: a successful mint sets it to (old + 1) mod 2^32 and stamps the
unit with sequence id (mint_count + 1) mod 2^32 read at the start of the
mint; no other call changes it. As long as fewer than 2^32 successful
mints have happened (mint_count + 1 < 2^32), this is an increment by
exactly 1, the counter never decreases, and two consecutive successful
mints number their units with values differing by exactly 1; at the
2^32-th mint the counter wraps to 0. -/
theorem C1_mint_counter (sha256 : Bytes → Bytes) (owner : Address) :
    (∀ ptid price roy img meta s,
      init ptid price roy img meta = .ok s → s.mint_count = 0) ∧
    (∀ pt amt ts nonce caller s s' u tr,
      mint pt amt sha256 ts nonce caller s = .ok (s', u, tr) →
      s'.mint_count = (s.mint_count + 1) % U32_MOD ∧
      u.name = s.nft_token_name ++ HASH_TAG
        ++ to_string_bytes ((s.mint_count + 1) % U32_MOD) ∧
      (s.mint_count + 1 < U32_MOD →
        s'.mint_count = s.mint_count + 1 ∧
        s.mint_count < s'.mint_count)) ∧
    (∀ σ l σ', Step sha256 owner σ l σ' →
      (∀ seq u tr, l ≠ Label.mintedL seq u tr) →
      σ'.st.mint_count = σ.st.mint_count) ∧
    (∀ σ l σ', Step sha256 owner σ l σ' → σ.st.mint_count + 1 < U32_MOD →
      σ.st.mint_count ≤ σ'.st.mint_count) ∧
    (∀ pt amt ts nonce caller s s' u tr pt2 amt2 ts2 nonce2 caller2 s'' u2 tr2,
      mint pt amt sha256 ts nonce caller s = .ok (s', u, tr) →
      mint pt2 amt2 sha256 ts2 nonce2 caller2 s' = .ok (s'', u2, tr2) →
      s.mint_count + 2 < U32_MOD →
      u.name = s.nft_token_name ++ HASH_TAG
        ++ to_string_bytes (s.mint_count + 1) ∧
      u2.name = s'.nft_token_name ++ HASH_TAG
        ++ to_string_bytes (s.mint_count + 2) ∧
      s''.mint_count = s'.mint_count + 1) := by
  refine ⟨fun ptid price roy img meta s h => ?_,
    fun pt amt ts nonce caller s s' u tr h => ?_,
    fun σ l σ' st hl => st.mint_count_frame hl,
    fun σ l σ' st hlt => ?_,
    fun pt amt ts nonce caller s s' u tr pt2 amt2 ts2 nonce2 caller2 s'' u2
      tr2 h1 h2 hlt => ?_⟩
  · by_cases h1 : roy ≤ ROYALTIES_MAX
    · by_cases h2 : (ptid.is_egld || ptid.is_valid_esdt_identifier) = true
      · rw [init, if_pos h1, if_pos h2] at h
        simp only [Except.ok.injEq] at h
        rw [← h]
      · rw [init, if_pos h1, if_neg h2] at h
        exact absurd h (by simp)
    · rw [init, if_neg h1] at h
      exact absurd h (by simp)
  · refine ⟨(mint_ok_inv h).1 ▸ rfl, mint_ok_unit h, fun hlt => ?_⟩
    have hc : s'.mint_count = s.mint_count + 1 := by
      rw [(mint_ok_inv h).1]
      exact Nat.mod_eq_of_lt hlt
    exact ⟨hc, by rw [hc]; exact Nat.lt_succ_self _⟩
  · rcases st.mint_count_cases with h | h
    · exact le_of_eq h.symm
    · rw [h, Nat.mod_eq_of_lt hlt]
      exact Nat.le_succ _
  · have hc1 : s'.mint_count = s.mint_count + 1 := by
      rw [(mint_ok_inv h1).1]
      exact Nat.mod_eq_of_lt (by omega)
    refine ⟨?_, ?_, ?_⟩
    · rw [mint_ok_unit h1, Nat.mod_eq_of_lt (show s.mint_count + 1 < U32_MOD
        by omega)]
    · rw [mint_ok_unit h2, hc1, Nat.mod_eq_of_lt (show s.mint_count + 1 + 1 <
        U32_MOD by omega)]
    · rw [(mint_ok_inv h2).1, hc1, Nat.mod_eq_of_lt (show s.mint_count + 1 +
        1 < U32_MOD by omega)]

/-- The single issuance request of the wrap execution. -/
def reqC1 : IssueRequest := ⟨0, [], []⟩

/-- Counterexample to C1 as stated: in the reachable execution that
performs 2^32 successful mints after deployment and issuance (one
request, its success callback, then the mints), the 2^32-th successful
mint is accepted but wraps the u32 counter from 2^32 - 1 back to 0 — the
counter decreases and is not incremented by 1, and the unit minted by
that call carries sequence number 0, not mint_count + 1 = 2^32. -/
theorem C1_mint_counter_counterexample :
    init .egld 1 0 [] [] = .ok s0C1 ∧
    Step sha0 0 ⟨s0C1, []⟩ (.issueRequestedL reqC1) ⟨s0C1, [reqC1]⟩ ∧
    Step sha0 0 ⟨s0C1, [reqC1]⟩ (.issueOkL reqC1 nftTidC1)
      ⟨sIssuedC1, []⟩ ∧
    StepStar sha0 0 ⟨sIssuedC1, []⟩ ⟨mintN (U32_MOD - 1) sIssuedC1, []⟩ ∧
    (mintN (U32_MOD - 1) sIssuedC1).mint_count = U32_MOD - 1 ∧
    mint .egld 1 sha0 0 0 0 (mintN (U32_MOD - 1) sIssuedC1) =
      .ok (mintN U32_MOD sIssuedC1, uC1 (U32_MOD - 1), trC1) ∧
    (mintN U32_MOD sIssuedC1).mint_count = 0 ∧
    (mintN U32_MOD sIssuedC1).mint_count <
      (mintN (U32_MOD - 1) sIssuedC1).mint_count ∧
    (mintN U32_MOD sIssuedC1).mint_count ≠
      (mintN (U32_MOD - 1) sIssuedC1).mint_count + 1 ∧
    (uC1 (U32_MOD - 1)).name =
      (mintN (U32_MOD - 1) sIssuedC1).nft_token_name ++ HASH_TAG
        ++ to_string_bytes 0 := by
  have hm : (U32_MOD - 1) % U32_MOD = U32_MOD - 1 :=
    Nat.mod_eq_of_lt (by norm_num [U32_MOD])
  refine ⟨rfl,
    @Step.issue_requested sha0 0 [] [] 0 0 s0C1 s0C1 reqC1 [] rfl,
    @Step.callback_ok sha0 0 s0C1 reqC1 nftTidC1 0 .egld [reqC1]
      (by decide),
    stepstar_mintN (U32_MOD - 1), ?_, ?_, ?_, ?_, ?_, ?_⟩
  · rw [mintN_eq]
    exact hm
  · have h := mint_mintN (U32_MOD - 1)
    rw [hm] at h
    rw [show U32_MOD - 1 + 1 = U32_MOD from by norm_num [U32_MOD]] at h
    exact h
  · rw [mintN_eq]
    exact Nat.mod_self _
  · rw [mintN_eq, mintN_eq]
    show U32_MOD % U32_MOD < (U32_MOD - 1) % U32_MOD
    rw [Nat.mod_self, hm]
    norm_num [U32_MOD]
  · rw [mintN_eq, mintN_eq]
    show U32_MOD % U32_MOD ≠ (U32_MOD - 1) % U32_MOD + 1
    rw [Nat.mod_self, hm]
    norm_num [U32_MOD]
  · rw [mintN_eq]
    show HASH_TAG ++ to_string_bytes ((U32_MOD - 1 + 1) % U32_MOD) =
      [] ++ HASH_TAG ++ to_string_bytes 0
    rw [show U32_MOD - 1 + 1 = U32_MOD from by norm_num [U32_MOD],
      Nat.mod_self]
    rfl

/-- Witness for the amended C1: the deployed state has counter 0, and the
concrete mint from `sampleIssued` (counter 2 < 2^32 - 1) increments the
counter to exactly 3. -/
theorem C1_mint_counter_witness :
    s0C1.mint_count = 0 ∧
    sampleAfter.mint_count = (sampleIssued.mint_count + 1) % U32_MOD ∧
    sampleAfter.mint_count = sampleIssued.mint_count + 1 ∧
    sampleIssued.mint_count < sampleAfter.mint_count := by
  have h := C1_mint_counter sampleSha 0
  have h2 := h.2.1 .egld 5 77 9 42 sampleIssued sampleAfter sampleUnit
    sampleTr rfl
  exact ⟨h.1 .egld 1 0 [] [] s0C1 rfl, h2.1, (h2.2.2 (by decide)).1,
    (h2.2.2 (by decide)).2⟩

/-! ## The overlapping-issuance execution refuting terminality (C6) -/

/-- First request of the overlapping-issuance execution. -/
def reqA : IssueRequest := ⟨0, str_bytes "A", str_bytes "T"⟩

/-- Second (duplicate) request, sent while the first is outstanding. -/
def reqB : IssueRequest := ⟨0, str_bytes "B", str_bytes "T"⟩

/-- Token id the authority allocates for the first request. -/
def tidA : TokenIdentifier := .esdt (str_bytes "AAA-111111")

/-- Token id the authority allocates for the second request. -/
def tidB : TokenIdentifier := .esdt (str_bytes "BBB-222222")

/-- Storage after the first request of the overlapping execution. -/
def sNameA : State := { s0C1 with nft_token_name := str_bytes "A" }

/-- Storage after the second request of the overlapping execution. -/
def sNameB : State := { s0C1 with nft_token_name := str_bytes "B" }

/-- Storage once the first request's success callback lands: issued. -/
def sIssuedA : State := { sNameB with nft_token_id := some tidA }

/-- Storage once the second request's success callback lands as well. -/
def sIssuedB : State := { sNameB with nft_token_id := some tidB }

/-- Counterexample to C6 as stated: from the deployed state, issueNft runs
twice while the token id is still empty (spec §5 admits the duplicate
outstanding request), both requests succeed with the authority, and the
two success callbacks land one after the other. After the first callback
the contract is Issued with id tidA; the second callback — an ordinary
reachable step, whose Ok branch writes the id unguarded — overwrites the
identifier with tidB ≠ tidA, so Issued is not terminal for the
identifier over all reachable executions. -/
theorem C6_issued_terminal_counterexample :
    init .egld 1 0 [] [] = .ok s0C1 ∧
    Step sha0 0 ⟨s0C1, []⟩ (.issueRequestedL reqA) ⟨sNameA, [reqA]⟩ ∧
    Step sha0 0 ⟨sNameA, [reqA]⟩ (.issueRequestedL reqB)
      ⟨sNameB, [reqB, reqA]⟩ ∧
    Step sha0 0 ⟨sNameB, [reqB, reqA]⟩ (.issueOkL reqA tidA)
      ⟨sIssuedA, [reqB]⟩ ∧
    sIssuedA.nft_token_id = some tidA ∧
    Step sha0 0 ⟨sIssuedA, [reqB]⟩ (.issueOkL reqB tidB) ⟨sIssuedB, []⟩ ∧
    sIssuedB.nft_token_id = some tidB ∧
    tidB ≠ tidA :=
  ⟨rfl,
    @Step.issue_requested sha0 0 (str_bytes "A") (str_bytes "T") 0 0 s0C1
      sNameA reqA [] rfl,
    @Step.issue_requested sha0 0 (str_bytes "B") (str_bytes "T") 0 0 sNameA
      sNameB reqB [reqA] rfl,
    @Step.callback_ok sha0 0 sNameB reqA tidA 0 .egld [reqB, reqA]
      (by decide),
    rfl,
    @Step.callback_ok sha0 0 sIssuedA reqB tidB 0 .egld [reqB] (by decide),
    rfl,
    by decide⟩

end NftManager
